import Mathlib

/-!
Verification of the Kids-Over-Profits-Tools field-extraction pipeline

Shallow embedding of the free-text field-extraction code of the repository
(`utah_citation_scraper.py`, `enhanced_extraction_with_ocr.py`, `ca_scraper.py`,
`az_inspections/az_inspections_09_2025/azpdf2json.py`) and proofs about it.

Python strings are modelled as `String` / `List Char`.  Python regular
expressions are modelled by hand-written scanners over `List Char` that follow
the leftmost-match / backtracking behaviour of `re.search` (`re.IGNORECASE`
compares characters through ASCII `lowerCh`; `re.DOTALL` lets a gap cross
newlines; without it a gap stays on one line).  `re.sub` is modelled by a
left-to-right scan that replaces non-overlapping matches, exactly as the
Python engine does.  Python `dict`s with insertion order are modelled as
association lists `List (String × Val)`.
-/

/-! ## Character helpers (Python `str` predicates, ASCII) -/

/-- Python whitespace class `\s` over ASCII: space, tab, newline, carriage
return, vertical tab, form feed. -/
def isWsChar (c : Char) : Bool :=
  c == ' ' || c == '\t' || c == '\n' || c == '\r' || c == '\x0b' || c == '\x0c'

/-- ASCII digit, the `\d` class. -/
def isDigitCh (c : Char) : Bool := '0' ≤ c && c ≤ '9'

/-- ASCII `[A-Z]`. -/
def isUpperCh (c : Char) : Bool := 'A' ≤ c && c ≤ 'Z'

/-- ASCII `[A-Za-z]`. -/
def isAlphaCh (c : Char) : Bool := isUpperCh c || ('a' ≤ c && c ≤ 'z')

/-- ASCII lower-casing, used to model `re.IGNORECASE` comparisons. -/
def lowerCh : Char → Char
  | 'A' => 'a' | 'B' => 'b' | 'C' => 'c' | 'D' => 'd' | 'E' => 'e' | 'F' => 'f'
  | 'G' => 'g' | 'H' => 'h' | 'I' => 'i' | 'J' => 'j' | 'K' => 'k' | 'L' => 'l'
  | 'M' => 'm' | 'N' => 'n' | 'O' => 'o' | 'P' => 'p' | 'Q' => 'q' | 'R' => 'r'
  | 'S' => 's' | 'T' => 't' | 'U' => 'u' | 'V' => 'v' | 'W' => 'w' | 'X' => 'x'
  | 'Y' => 'y' | 'Z' => 'z' | c => c

/-- Numeric value of a digit character. -/
def digitVal (c : Char) : Nat := c.toNat - 48

/-- Python `int()` applied to a run of digit characters. -/
def natOfDigits (ds : List Char) : Nat := ds.foldl (fun a c => a * 10 + digitVal c) 0

/-! ## Generic list-of-characters scanning helpers -/

/-- Predicate: `pat` is a case-insensitive prefix of `cs` (character-wise `lowerCh`
comparison, the way `re.IGNORECASE` matches a literal). -/
def ciPrefixAt : List Char → List Char → Bool
  | [], _ => true
  | _ :: _, [] => false
  | p :: ps, c :: cs => lowerCh p == lowerCh c && ciPrefixAt ps cs

/-- Test: `cs` contains `pat` (case-insensitively) somewhere: an `re.IGNORECASE`
substring test. -/
def ciContains (pat : List Char) : List Char → Bool
  | [] => ciPrefixAt pat []
  | c :: cs => ciPrefixAt pat (c :: cs) || ciContains pat cs

/-- Leftmost-match scan: try the partial matcher `f` at every suffix position
from the left, the way `re.search` looks for the leftmost position where the
pattern matches (with backtracking to later positions on failure). -/
def scanOpt (f : List Char → Option α) : List Char → Option α
  | [] => f []
  | c :: cs =>
    match f (c :: cs) with
    | some v => some v
    | none => scanOpt f cs

/-- Python `str.strip()`: whitespace removed from both ends. -/
def stripChars (l : List Char) : List Char :=
  (((l.dropWhile isWsChar).reverse.dropWhile isWsChar)).reverse

/-- One pass of `re.sub(r'\s+', ' ', ·)`: every maximal whitespace run becomes
a single space.  `inRun` records whether the previous character was part of a
whitespace run already emitted. -/
def collapseWsGo : List Char → Bool → List Char
  | [], _ => []
  | c :: cs, inRun =>
    if isWsChar c then
      if inRun then collapseWsGo cs true else ' ' :: collapseWsGo cs true
    else c :: collapseWsGo cs false

def collapseWs (l : List Char) : List Char := collapseWsGo l false

/-- Boolean subsequence test (used to state hypotheses about character
data-flow). -/
def subseqB : List Char → List Char → Bool
  | [], _ => true
  | _ :: _, [] => false
  | a :: as, b :: bs => if a == b then subseqB as bs else subseqB (a :: as) bs

/-- Values stored in the result dictionaries of the extraction functions. -/
inductive Val
  | int (n : Nat)
  | str (s : String)
  | defs (ds : List (String × String × String))
  | null
deriving DecidableEq, Repr

/-- Python truthiness of a dictionary value, as tested by
`any(result.values())`: `None`, `0` and `""` are falsy. -/
def Val.truthy : Val → Bool
  | .int n => n != 0
  | .str s => s != ""
  | .defs ds => !ds.isEmpty
  | .null => false

/-- Python `any(result.values())` over an insertion-ordered dict. -/
def anyVal (r : List (String × Val)) : Bool := r.any (fun p => p.2.truthy)

/-- Dictionary lookup (first binding wins, as in a Python dict where each key
is inserted once). -/
def lookupKey (k : String) : List (String × Val) → Option Val
  | [] => none
  | (k', v) :: r => if k' = k then some v else lookupKey k r

/-- Ordered first-match pattern chain.  This is the control-flow shape shared
by every pattern list in the sources: `for pattern, label in patterns: m =
re.search(pattern, text); if m: ...; break` (e.g. `present_patterns` and the
capacity chains in `utah_citation_scraper.extract_data_from_text`, the
contact/licensor chains, and the `if/elif` census chain of
`enhanced_extraction_with_ocr.extract_data_from_text`).  Each entry is a
labelled matcher standing for one `re.search(pattern, text)` call; the first
matcher that returns a value wins and its label records which pattern fired. -/
def firstMatch : List (α × (List Char → Option β)) → List Char → Option (α × β)
  | [], _ => none
  | (lbl, m) :: rest, t =>
    match m t with
    | some v => some (lbl, v)
    | none => firstMatch rest t

/-! ## Regex building blocks

Each helper models one regex fragment, named in its doc comment.  Gaps written
`.*?` are lazy: the scanners try the nearest completion first and move right
on failure, which is exactly the backtracking order of the Python engine. -/

/-- A digit run `(\d+)` at the current position, with the remaining text. -/
def numAt (cs : List Char) : Option (Nat × List Char) :=
  let ds := cs.takeWhile isDigitCh
  if ds.isEmpty then none else some (natOfDigits ds, cs.drop ds.length)

/-- Pattern `\s+(\d+)`: at least one whitespace character, then a digit run. -/
def wsNum (cs : List Char) : Option (Nat × List Char) :=
  let w := cs.takeWhile isWsChar
  if w.isEmpty then none else numAt (cs.drop w.length)

/-- Pattern `\s*\n\s*(\d+)`: a whitespace run containing at least one newline,
immediately followed by a digit run. -/
def wsNLNum (cs : List Char) : Option Nat :=
  let w := cs.takeWhile isWsChar
  if w.contains '\n' then (numAt (cs.drop w.length)).map (fun p => p.1) else none

/-- Pattern `[cls]+(\d+)` (or `[cls]*(\d+)` when `one` is false): a run of class
characters, then a digit run.  The classes used never contain digits, so the
greedy run is forced. -/
def clsRunNum (one : Bool) (cls : Char → Bool) (cs : List Char) : Option Nat :=
  let w := cs.takeWhile cls
  if one && w.isEmpty then none else (numAt (cs.drop w.length)).map (fun p => p.1)

/-- Pattern `\s+(\d+)(?:\s|$)`: whitespace, digit run, then whitespace or the end. -/
def wsNumEnd (cs : List Char) : Option Nat :=
  match wsNum cs with
  | some (n, rest) =>
    match rest with
    | [] => some n
    | c :: _ => if isWsChar c then some n else none
  | none => none

/-- Pattern `.*?(\d+)` without `re.DOTALL`: the first digit run on the current line. -/
def firstNumLine : List Char → Option Nat
  | [] => none
  | c :: cs =>
    if isDigitCh c then some (natOfDigits ((c :: cs).takeWhile isDigitCh))
    else if c == '\n' then none
    else firstNumLine cs

/-- Pattern `.*?(\d+)` with `re.DOTALL`: the first digit run anywhere ahead. -/
def firstNumAny : List Char → Option Nat
  | [] => none
  | c :: cs =>
    if isDigitCh c then some (natOfDigits ((c :: cs).takeWhile isDigitCh))
    else firstNumAny cs

/-- Pattern `.{0,k}?(\d+)` with `re.DOTALL`: a digit run starting within `k`
characters. -/
def boundedNumGap : Nat → List Char → Option Nat
  | _, [] => none
  | 0, c :: cs =>
    if isDigitCh c then some (natOfDigits ((c :: cs).takeWhile isDigitCh)) else none
  | k + 1, c :: cs =>
    if isDigitCh c then some (natOfDigits ((c :: cs).takeWhile isDigitCh))
    else boundedNumGap k cs

/-- Pattern `ANCHOR` + continuation with a free leading gap (`re.search` of a pattern
beginning with a case-insensitive literal, or a `.*?ANCHOR...` gap under
`re.DOTALL`): try every occurrence of the anchor from the left, running `k` on
the text after it. -/
def ciSearch (anchor : List Char) (k : List Char → Option α) : List Char → Option α :=
  scanOpt (fun s => if ciPrefixAt anchor s then k (s.drop anchor.length) else none)

/-- Case-sensitive variant of `ciSearch`, for patterns compiled without
`re.IGNORECASE`. -/
def csSearch (anchor : List Char) (k : List Char → Option α) : List Char → Option α :=
  scanOpt (fun s => if anchor.isPrefixOf s then k (s.drop anchor.length) else none)

/-- Pattern `.*?ANCHOR` without `re.DOTALL`: like `ciSearch` but the gap cannot cross
a newline. -/
def ciSeekLine (anchor : List Char) (k : List Char → Option α) : List Char → Option α
  | [] => if ciPrefixAt anchor [] then k [] else none
  | c :: cs =>
    match (if ciPrefixAt anchor (c :: cs) then k ((c :: cs).drop anchor.length) else none) with
    | some v => some v
    | none => if c == '\n' then none else ciSeekLine anchor k cs

/-- Pattern `\s*(\d+)\s+(\d+)\s+(\d+)`: three whitespace-separated digit runs. -/
def tripleNums (cs : List Char) : Option (Nat × Nat × Nat) :=
  match numAt (cs.dropWhile isWsChar) with
  | some (a, r1) =>
    match wsNum r1 with
    | some (b, r2) =>
      match wsNum r2 with
      | some (c, _) => some (a, b, c)
      | none => none
    | none => none
  | none => none

/-- Pattern `.*?\n\s*(\d+)\s+(\d+)\s+(\d+)` with `re.DOTALL`: find the first newline
from which three whitespace-separated numbers follow. -/
def tripleAfterNL : List Char → Option (Nat × Nat × Nat) :=
  scanOpt (fun s =>
    match s with
    | '\n' :: rest => tripleNums rest
    | _ => none)

/-! ## `utah_citation_scraper.extract_data_from_text`

Embedding of `extract_data_from_text(text, method, debug)` from
`utah_citation_scraper.py` (the `debug` parameter only prints and is
dropped).  Each matcher is named after the pattern label used by the source's
debug output. -/

namespace Utah

/-- The class `[:\s]`. -/
def colonWs (c : Char) : Bool := c == ':' || isWsChar c

/-- The class `[:;\s]`. -/
def colonSemiWs (c : Char) : Bool := c == ':' || c == ';' || isWsChar c

/-- Everything but a line break, the class `[^\n\r]`. -/
def nonNL (c : Char) : Bool := !(c == '\n' || c == '\r')

/-- Pattern 1: `Approved\s*#.*?Capacity.*?Present.*?\n\s*(\d+)\s+(\d+)\s+(\d+)`
with `re.IGNORECASE | re.DOTALL`. -/
def tableP1 : List Char → Option (Nat × Nat × Nat) :=
  ciSearch ("approved".data) (fun r =>
    match r.dropWhile isWsChar with
    | '#' :: r2 =>
      ciSearch ("capacity".data) (ciSearch ("present".data) tripleAfterNL) r2
    | _ => none)

/-- Pattern 2: `Present.*?Capacity.*?Approved\s*#.*?\n\s*(\d+)\s+(\d+)\s+(\d+)`
with `re.IGNORECASE | re.DOTALL`. -/
def tableP2 : List Char → Option (Nat × Nat × Nat) :=
  ciSearch ("present".data) (ciSearch ("capacity".data) (ciSearch ("approved".data) (fun r =>
    match r.dropWhile isWsChar with
    | '#' :: r2 => tripleAfterNL r2
    | _ => none)))

/-- Pattern 2b: `Present[:\s]+(\d+).*?Capacity[:\s]+(\d+)` with
`re.IGNORECASE | re.DOTALL`. -/
def combinedP2b : List Char → Option (Nat × Nat) :=
  ciSearch ("present".data) (fun r =>
    match numAt (r.drop (r.takeWhile colonWs).length) with
    | some (n1, r1) =>
      if (r.takeWhile colonWs).isEmpty then none
      else (ciSearch ("capacity".data) (clsRunNum true colonWs) r1).map (fun n2 => (n1, n2))
    | none => none)

/-- Pattern `\s*[SYM]\s*(\d+)` where `SYM` is drawn from a symbol set. -/
def symNum (sym : List Char) (cs : List Char) : Option Nat :=
  match cs.dropWhile isWsChar with
  | c :: rest => if sym.contains c then (numAt (rest.dropWhile isWsChar)).map (fun p => p.1) else none
  | [] => none

/-- Pattern 7: `(?:^|\n)Present.*?(\d+)` with `re.IGNORECASE | re.MULTILINE`
("present" at the start of a line, digits further on the same line). -/
def p7Present (cs : List Char) : Option Nat :=
  match (if ciPrefixAt ("present".data) cs then firstNumLine (cs.drop 7) else none) with
  | some v => some v
  | none =>
    scanOpt (fun s =>
      match s with
      | '\n' :: rest => if ciPrefixAt ("present".data) rest then firstNumLine (rest.drop 7) else none
      | _ => none) cs

/-- Patterns 3-7, the `present_patterns` list (captured value: census). -/
def presentPatterns : List (String × (List Char → Option Nat)) :=
  [ ("P3-Present\\n", ciSearch ("present".data) wsNLNum),
    ("P4-Present:", ciSearch ("present".data) (symNum [':', ';'])),
    ("P5-Present_", ciSearch ("present".data) wsNumEnd),
    ("P6-Present|", ciSearch ("present".data) (symNum ['|'])),
    ("P7-PresentAny", p7Present) ]

/-- Pattern `(?:Licensed\s+)?Capacity\s*\n\s*(\d+)` (the optional prefix does not
change the captured value). -/
def capNL : List Char → Option Nat := ciSearch ("capacity".data) wsNLNum

/-- Pattern `(?:Licensed\s+|Approved\s+|Max(?:imum)?\s+)?Capacity\s*[:;\s]+(\d+)`. -/
def capColon : List Char → Option Nat := ciSearch ("capacity".data) (clsRunNum true colonSemiWs)

/-- Pattern `(?:Licensed\s+)?Capacity\s*[|]\s*(\d+)`. -/
def capPipe : List Char → Option Nat := ciSearch ("capacity".data) (symNum ['|'])

/-- Pattern `(?:Licensed\s+|Approved\s+|Max(?:imum)?\s+)?Capacity\s+(\d+)`. -/
def capWs : List Char → Option Nat :=
  ciSearch ("capacity".data) (fun r => (wsNum r).map (fun p => p.1))

/-- Pattern `(?:Licensed|Approved|Max|Maximum)?\s*Capacity.*?(\d+)` (no `re.DOTALL`:
the digits must sit on the same line as "Capacity"). -/
def capAny : List Char → Option Nat := ciSearch ("capacity".data) firstNumLine

/-- Pattern `Approved\s*#\s*\n\s*\d+\s+(\d+)`: "Approved #", a line break, then two
numbers of which the second is captured. -/
def apprAlt : List Char → Option Nat :=
  ciSearch ("approved".data) (fun r =>
    match r.dropWhile isWsChar with
    | '#' :: r2 =>
      let w := r2.takeWhile isWsChar
      if w.contains '\n' then
        match numAt (r2.drop w.length) with
        | some (_, r3) => (wsNum r3).map (fun p => p.1)
        | none => none
      else none
    | _ => none)

/-- The capacity chain used inside the `present_patterns` and
`num_present_patterns` loops (six entries ending in `ApprAlt`). -/
def capacityChainA : List (String × (List Char → Option Nat)) :=
  [ ("Cap\\n", capNL), ("Cap:", capColon), ("Cap|", capPipe),
    ("Cap_", capWs), ("CapAny", capAny), ("ApprAlt", apprAlt) ]

/-- The capacity chain used after patterns 12 and 13 (five entries, no
`ApprAlt`). -/
def capacityChainB : List (String × (List Char → Option Nat)) :=
  [ ("Cap\\n", capNL), ("Cap:", capColon), ("Cap|", capPipe),
    ("Cap_", capWs), ("CapAny", capAny) ]

/-- Pattern 8: `#\s*of\s*Present\s+(\d+)(?:\s|$)`. -/
def p8 : List Char → Option Nat :=
  scanOpt (fun s =>
    match s with
    | '#' :: r =>
      let r1 := r.dropWhile isWsChar
      if ciPrefixAt ("of".data) r1 then
        let r2 := (r1.drop 2).dropWhile isWsChar
        if ciPrefixAt ("present".data) r2 then wsNumEnd (r2.drop 7) else none
      else none
    | _ => none)

/-- Pattern 9: `#\s*Present\s+(\d+)(?:\s|$)`. -/
def p9 : List Char → Option Nat :=
  scanOpt (fun s =>
    match s with
    | '#' :: r =>
      let r1 := r.dropWhile isWsChar
      if ciPrefixAt ("present".data) r1 then wsNumEnd (r1.drop 7) else none
    | _ => none)

/-- Pattern 10: `Approved.*?Present\s+\d+\s+(\d+)` (the gap stays on one
line, no `re.DOTALL`). -/
def p10 : List Char → Option Nat :=
  ciSearch ("approved".data) (ciSeekLine ("present".data) (fun r =>
    match wsNum r with
    | some (_, r1) => (wsNum r1).map (fun p => p.1)
    | none => none))

/-- Pattern 11: `(?:number|count|total)\s+present[:\s]*(\d+)`. -/
def p11 : List Char → Option Nat :=
  scanOpt (fun s =>
    match (if ciPrefixAt ("number".data) s then some (s.drop 6) else none) <|>
          (if ciPrefixAt ("count".data) s then some (s.drop 5) else none) <|>
          (if ciPrefixAt ("total".data) s then some (s.drop 5) else none) with
    | some r =>
      if (r.takeWhile isWsChar).isEmpty then none
      else
        let r1 := r.dropWhile isWsChar
        if ciPrefixAt ("present".data) r1 then clsRunNum false colonWs (r1.drop 7) else none
    | none => none)

/-- Patterns 8-11, the `num_present_patterns` list. -/
def numPresentPatterns : List (String × (List Char → Option Nat)) :=
  [ ("P8-#ofPresent", p8), ("P9-#Present", p9),
    ("P10-Skip1st", p10), ("P11-NumPresent", p11) ]

/-- Pattern 12: `census[:\s]*(\d+)`. -/
def censusKw : List Char → Option Nat := ciSearch ("census".data) (clsRunNum false colonWs)

/-- Pattern 13: `present.{0,20}?(\d+)` with `re.IGNORECASE | re.DOTALL`. -/
def presentNearby : List Char → Option Nat := ciSearch ("present".data) (boundedNumGap 20)

/-- The full text-method census/capacity chain of
`utah_citation_scraper.extract_data_from_text` (patterns 1 to 13 with their
nested capacity chains), returning `(census, capacity)`. -/
def textCensusCapacity (cs : List Char) : Option Nat × Option Nat :=
  match tableP1 cs with
  | some (_, cap, cen) => (some cen, some cap)
  | none =>
    match tableP2 cs with
    | some (cen, cap, _) => (some cen, some cap)
    | none =>
      match combinedP2b cs with
      | some (cen, cap) => (some cen, some cap)
      | none =>
        match firstMatch presentPatterns cs with
        | some (_, cen) => (some cen, (firstMatch capacityChainA cs).map (fun p => p.2))
        | none =>
          match firstMatch numPresentPatterns cs with
          | some (_, cen) => (some cen, (firstMatch capacityChainA cs).map (fun p => p.2))
          | none =>
            match censusKw cs with
            | some cen => (some cen, (firstMatch capacityChainB cs).map (fun p => p.2))
            | none =>
              match presentNearby cs with
              | some cen => (some cen, (firstMatch capacityChainB cs).map (fun p => p.2))
              | none => (none, none)

/-- OCR pattern `Present.*?(\d+).*?Capacity.*?(\d+)` with
`re.IGNORECASE | re.DOTALL`: lazy gaps, so the first digit run after
"Present" from which "Capacity" followed by digits can still be reached. -/
def seekNumThenCap : List Char → Option (Nat × Nat)
  | [] => none
  | c :: cs =>
    if isDigitCh c then
      match ciSearch ("capacity".data) firstNumAny ((c :: cs).drop ((c :: cs).takeWhile isDigitCh).length) with
      | some n2 => some (natOfDigits ((c :: cs).takeWhile isDigitCh), n2)
      | none => seekNumThenCap cs
    else seekNumThenCap cs

def presentCapacityOCR : List Char → Option (Nat × Nat) :=
  ciSearch ("present".data) seekNumThenCap

/-- Pattern `\s*([^\n\r]+)`: skip whitespace (which may cross lines), capture the
rest of the line; when only whitespace remains the engine backtracks and
captures the line-local tail of that whitespace. -/
def wsCapLine (cs : List Char) : Option (List Char) :=
  let w := cs.takeWhile isWsChar
  match cs.drop w.length with
  | c :: rest => some (c :: rest.takeWhile nonNL)
  | [] =>
    let tailSeg := w.reverse.takeWhile nonNL
    if tailSeg.isEmpty then none else some tailSeg.reverse

/-- Contact pattern 1: `Name of Individual Informed.*?Inspection:?\s*([^\n\r]+)`. -/
def contact1 : List Char → Option (List Char) :=
  ciSearch ("name of individual informed".data) (ciSeekLine ("inspection".data) (fun r =>
    wsCapLine (match r with | ':' :: t => t | _ => r)))

/-- Pattern `:?\s*([A-Za-z][^\n\r]*)` at the current position: optional colon,
whitespace, then a letter starting the captured line tail. -/
def alphaCapAt (s : List Char) : Option (List Char) :=
  let s1 := match s with | ':' :: t => t | _ => s
  match s1.dropWhile isWsChar with
  | a :: t => if isAlphaCh a then some (a :: t.takeWhile nonNL) else none
  | [] => none

/-- Same-line lazy gap scan (`.*?` without `re.DOTALL`): try `k` at every
position up to the end of the current line. -/
def lineScan (k : List Char → Option α) : List Char → Option α
  | [] => k []
  | c :: cs =>
    match k (c :: cs) with
    | some v => some v
    | none => if c == '\n' then none else lineScan k cs

/-- Contact pattern 2: `Individual Informed.*?:?\s*([A-Za-z][^\n\r]*)`. -/
def contact2 : List Char → Option (List Char) :=
  ciSearch ("individual informed".data) (lineScan alphaCapAt)

def contactChain : List (String × (List Char → Option (List Char))) :=
  [("contact-informed", contact1), ("contact-individual", contact2)]

/-- Pattern `\s+OL Staff` starts here (case-insensitively). -/
def olStaffAfter (cs : List Char) : Bool :=
  let w := cs.takeWhile isWsChar
  !w.isEmpty && ciPrefixAt ("ol staff".data) (cs.drop w.length)

/-- The terminator `(?:\s+OL Staff|$)` matches at this position (`$` matches
at the end of the text or before one final newline). -/
def olTerm (cs : List Char) : Bool :=
  olStaffAfter cs || cs.isEmpty || cs == ['\n']

/-- Lazy continuation of `([^\n\r]+?)(?:\s+OL Staff|$)` once at least one
character is captured: stop at the earliest terminator. -/
def capLazyOLGo (acc : List Char) : List Char → Option (List Char)
  | [] => some acc.reverse
  | c :: cs =>
    if olTerm (c :: cs) then some acc.reverse
    else if nonNL c then capLazyOLGo (c :: acc) cs
    else none

/-- Pattern `([^\n\r]+?)(?:\s+OL Staff|$)`: capture at least one character, lazily. -/
def capLazyOL1 : List Char → Option (List Char)
  | [] => none
  | c :: cs => if nonNL c then capLazyOLGo [c] cs else none

/-- Licensor pattern 1:
`Licensor\(?s?\)?\s*Conducting.*?Inspection:?\s*([^\n\r]+?)(?:\s+OL Staff|$)`. -/
def licensor1 : List Char → Option (List Char) :=
  ciSearch ("licensor".data) (fun r =>
    let r1 := match r with | '(' :: t => t | _ => r
    let r2 := match r1 with | c :: t => if lowerCh c == 's' then t else r1 | _ => r1
    let r3 := match r2 with | ')' :: t => t | _ => r2
    let r4 := r3.dropWhile isWsChar
    if ciPrefixAt ("conducting".data) r4 then
      ciSeekLine ("inspection".data) (fun r5 =>
        capLazyOL1 ((match r5 with | ':' :: t => t | _ => r5).dropWhile isWsChar)) (r4.drop 10)
    else none)

/-- Pattern `:?\s*([A-Za-z][^\n\r]*?)(?:\s+OL Staff|$)` at the current position. -/
def alphaCapOLAt (s : List Char) : Option (List Char) :=
  let s1 := match s with | ':' :: t => t | _ => s
  match s1.dropWhile isWsChar with
  | a :: t => if isAlphaCh a then capLazyOLGo [a] t else none
  | [] => none

/-- Licensor pattern 2:
`Licensor.*?:?\s*([A-Za-z][^\n\r]*?)(?:\s+OL Staff|$)`. -/
def licensor2 : List Char → Option (List Char) :=
  ciSearch ("licensor".data) (lineScan alphaCapOLAt)

def licensorChain : List (String × (List Char → Option (List Char))) :=
  [("licensor-conducting", licensor1), ("licensor-any", licensor2)]

/-- Cleanup `re.sub(r"\s+", " ", g.strip())` applied to a captured group. -/
def cleanSpaces (l : List Char) : String := String.mk (collapseWs (stripChars l))

/-- The f-string
`f"‚ö†Ô∏è SUSPICIOUS: Census ({census}) > Capacity ({capacity})"`
(the leading mojibake bytes are copied verbatim from the source). -/
def warnText (census capacity : Nat) : String :=
  "‚ö†Ô∏è SUSPICIOUS: Census (" ++ Nat.repr census ++ ") > Capacity (" ++ Nat.repr capacity ++ ")"

/-- The validation step at the end of `extract_data_from_text`: a warning is
produced exactly when census and capacity are both present and census exceeds
capacity. -/
def validation_warning_of (census capacity : Option Nat) : Option String :=
  match census, capacity with
  | some c, some k => if c > k then some (warnText c k) else none
  | _, _ => none

def valOfNat : Option Nat → Val
  | some n => Val.int n
  | none => Val.null

def valOfStr : Option String → Val
  | some s => Val.str s
  | none => Val.null

/-- The result dictionary built at the end of `extract_data_from_text`:
four fixed keys, plus `validation_warning` appended only when a warning was
produced. -/
def buildChecklistResult (census capacity : Option Nat) (contact licensor : Option String) :
    List (String × Val) :=
  let base := [("census", valOfNat census), ("capacity", valOfNat capacity),
               ("contact_person", valOfStr contact), ("licensor", valOfStr licensor)]
  match validation_warning_of census capacity with
  | some w => base ++ [("validation_warning", Val.str w)]
  | none => base

/-- Embedding of `extract_data_from_text(text, method)` of `utah_citation_scraper.py`. -/
def extract_data_from_text (text : String) (method : String) : List (String × Val) :=
  if (stripChars text.data).isEmpty then
    [("census", Val.null), ("capacity", Val.null),
     ("contact_person", Val.null), ("licensor", Val.null)]
  else
    let cs := text.data
    let cc : Option Nat × Option Nat :=
      if method == "easyocr" then
        match presentCapacityOCR cs with
        | some (c, k) => (some c, some k)
        | none => (none, none)
      else textCensusCapacity cs
    let contact := (firstMatch contactChain cs).map (fun p => cleanSpaces p.2)
    let licensor := (firstMatch licensorChain cs).map (fun p => cleanSpaces p.2)
    buildChecklistResult cc.1 cc.2 contact licensor

end Utah

/-! ## `utah_citation_scraper.extract_checklist_data`

The document-processing call.  The effectful library calls (`pdfplumber`,
`easyocr`, `pdf2image`) are modelled by a `PdfModel` record holding their
outcomes; Python exceptions are modelled with `Except`: the inner
`try/except` around the OCR stage and the outer `try/except` around the whole
body are both explicit.  The `Bool` component of the result records whether
control reached the OCR fallback (the program point of the
"Regular extraction failed completely, trying OCR..." print, line 471). -/

/-- Outcome of the effectful library calls made while processing one PDF. -/
structure PdfModel where
  /-- Whether `pdfplumber.open` (and first-page text extraction) succeeds. -/
  openOk : Bool
  /-- Value of `len(pdf.pages)`. -/
  pageCount : Nat
  /-- Value of `pdf.pages[0].extract_text() or ""`. -/
  pageText : String
  /-- Flag `EASYOCR_AVAILABLE`. -/
  easyocrAvailable : Bool
  /-- The EasyOCR reader / `convert_from_bytes` call raises. -/
  ocrRaises : Bool
  /-- Whether `convert_from_bytes(...)` returned at least one image. -/
  hasImages : Bool
  /-- OCR text recognised at each rotation angle. -/
  ocrText : Nat → String

inductive PyErr
  | pdfError
  | ocrError
deriving DecidableEq, Repr

/-- The rotation loop of `extract_checklist_data` (lines 489-503): state
`(best_text, best_angle, best_result)`, plus a counter of attempts consumed.
An attempt is examined only when its text is strictly longer than the best so
far; in that case the field extractor runs on it and the loop breaks when any
field is truthy. -/
def ocrLoop : List (Nat × String) → String → Nat → Option (List (String × Val)) →
    String × Nat × Option (List (String × Val)) × Nat
  | [], best, ang, res => (best, ang, res, 0)
  | (a, t) :: rest, best, ang, res =>
    if best.length < t.length then
      let tr := Utah.extract_data_from_text t ("easyocr")
      if anyVal tr then (t, a, some tr, 1)
      else
        match ocrLoop rest t a res with
        | (b, g, r, k) => (b, g, r, k + 1)
    else
      match ocrLoop rest best ang res with
      | (b, g, r, k) => (b, g, r, k + 1)

def noPagesRecord : List (String × Val) :=
  [("census", Val.null), ("capacity", Val.null), ("contact_person", Val.null),
   ("licensor", Val.null), ("extraction_method", Val.str ("no_pages"))]

def allFailedRecord : List (String × Val) :=
  [("census", Val.null), ("capacity", Val.null), ("contact_person", Val.null),
   ("licensor", Val.null), ("extraction_method", Val.str ("all_failed"))]

def errorRecord : List (String × Val) :=
  [("census", Val.null), ("capacity", Val.null), ("contact_person", Val.null),
   ("licensor", Val.null), ("extraction_method", Val.str ("error"))]

/-- The OCR stage inside the inner `try`: may raise, may find no images, may
find no text at any rotation (`None`), or return a finished result dict. -/
def ocrStage (m : PdfModel) : Except PyErr (Option (List (String × Val))) :=
  if m.ocrRaises then Except.error PyErr.ocrError
  else if m.hasImages then
    match ocrLoop ([0, 90, 180, 270].map (fun a => (a, m.ocrText a))) ("") 0 none with
    | (bestText, bestAngle, bestRes, _) =>
      if (stripChars bestText.data).isEmpty then Except.ok none
      else
        Except.ok (some
          ((bestRes.getD (Utah.extract_data_from_text bestText ("easyocr"))) ++
            [("extraction_method", Val.str ("easyocr_rotated_" ++ Nat.repr bestAngle))]))
  else Except.ok none

/-- Body of `extract_checklist_data` inside the outer `try`: opening the PDF
may raise; the OCR stage's exception is caught by the inner `except`, after
which control falls through to the `all_failed` return. -/
def extract_checklist_body (m : PdfModel) : Except PyErr (List (String × Val) × Bool) :=
  if !m.openOk then Except.error PyErr.pdfError
  else if m.pageCount == 0 then Except.ok (noPagesRecord, false)
  else
    let text := m.pageText
    let stage1 : Option (List (String × Val)) :=
      if (stripChars text.data).isEmpty then none
      else
        let r := Utah.extract_data_from_text text ("text")
        if anyVal r then some (r ++ [("extraction_method", Val.str ("text"))]) else none
    match stage1 with
    | some r => Except.ok (r, false)
    | none =>
      if m.easyocrAvailable then
        match ocrStage m with
        | Except.error _ => Except.ok (allFailedRecord, true)
        | Except.ok (some r) => Except.ok (r, true)
        | Except.ok none => Except.ok (allFailedRecord, true)
      else Except.ok (allFailedRecord, true)

/-- Embedding of `extract_checklist_data(pdf_content)` of `utah_citation_scraper.py`: the
outer `except Exception` turns any escaped exception into the `error` record,
so the caller always receives a dictionary. -/
def extract_checklist_data (m : PdfModel) : Except PyErr (List (String × Val)) × Bool :=
  match extract_checklist_body m with
  | Except.ok (r, b) => (Except.ok r, b)
  | Except.error _ => (Except.ok errorRecord, false)

/-! ## `enhanced_extraction_with_ocr.extract_data_from_text`

The census chain here is three case-sensitive patterns tried through
`if/elif`, plus a separate OCR chain; contact and licensor use single
patterns. -/

namespace Enhanced

/-- Pattern `Approved # of Present\s*\n\s*(\d+)` (case-sensitive, no flags). -/
def censusP1 : List Char → Option Nat :=
  csSearch ("Approved # of Present".data) wsNLNum

/-- Pattern `Approved # of Present\s+(\d+)` (case-sensitive). -/
def censusP2 : List Char → Option Nat :=
  csSearch ("Approved # of Present".data) (fun r => (wsNum r).map (fun p => p.1))

/-- Pattern `Approved # of Present\s+\d+\s+(\d+)` (case-sensitive). -/
def censusP3 : List Char → Option Nat :=
  csSearch ("Approved # of Present".data) (fun r =>
    match wsNum r with
    | some (_, r1) => (wsNum r1).map (fun p => p.1)
    | none => none)

/-- Text-method census chain (`if/elif` over patterns 1-3). -/
def censusText (cs : List Char) : Option Nat :=
  match censusP1 cs with
  | some v => some v
  | none =>
    match censusP2 cs with
    | some v => some v
    | none => censusP3 cs

/-- Pattern `# of Present.*?Residents.*?Clients.*?(\d+)` with
`re.IGNORECASE | re.DOTALL`. -/
def censusOcr1 : List Char → Option Nat :=
  ciSearch ("# of present".data)
    (ciSearch ("residents".data) (ciSearch ("clients".data) firstNumAny))

/-- Pattern `Present.*?(\d+)` with `re.IGNORECASE` (same-line gap). -/
def censusOcr2 : List Char → Option Nat :=
  ciSearch ("present".data) firstNumLine

/-- Pattern `Approved.*?Present.*?(\d+)` with `re.IGNORECASE` (same-line gaps). -/
def censusOcrFallback : List Char → Option Nat :=
  ciSearch ("approved".data) (ciSeekLine ("present".data) firstNumLine)

/-- OCR-method census chain. -/
def censusOcr (cs : List Char) : Option Nat :=
  match censusOcr1 cs with
  | some v => some v
  | none =>
    match censusOcr2 cs with
    | some v => some v
    | none => censusOcrFallback cs

/-- Pattern `Name of Individual Informed of (?:this )?Inspection:?\s*([^\n\r]+)` with
`re.IGNORECASE`. -/
def contactPattern : List Char → Option (List Char) :=
  ciSearch ("name of individual informed of ".data) (fun r =>
    let r1 := if ciPrefixAt ("this ".data) r then r.drop 5 else r
    if ciPrefixAt ("inspection".data) r1 then
      Utah.wsCapLine (match r1.drop 10 with | ':' :: t => t | r2 => r2)
    else none)

/-- Pattern `Licensor\(?s?\)?\s*Conducting (?:this )?Inspection:?\s*([^\n\r]+?)(?:\s+OL Staff|$)`
with `re.IGNORECASE`. -/
def licensorPattern : List Char → Option (List Char) :=
  ciSearch ("licensor".data) (fun r =>
    let r1 := match r with | '(' :: t => t | _ => r
    let r2 := match r1 with | c :: t => if lowerCh c == 's' then t else r1 | _ => r1
    let r3 := match r2 with | ')' :: t => t | _ => r2
    let r4 := r3.dropWhile isWsChar
    if ciPrefixAt ("conducting ".data) r4 then
      let r5 := r4.drop 11
      let r6 := if ciPrefixAt ("this ".data) r5 then r5.drop 5 else r5
      if ciPrefixAt ("inspection".data) r6 then
        Utah.capLazyOL1 ((match r6.drop 10 with | ':' :: t => t | r7 => r7).dropWhile isWsChar)
      else none
    else none)

/-- Embedding of `extract_data_from_text(text, method)` of
`enhanced_extraction_with_ocr.py` (three keys, captured groups merely
stripped, not whitespace-collapsed). -/
def extract_data_from_text (text : String) (method : String) : List (String × Val) :=
  if (stripChars text.data).isEmpty then
    [("census", Val.null), ("contact_person", Val.null), ("licensor", Val.null)]
  else
    let cs := text.data
    let census : Option Nat :=
      if method == "text" then censusText cs
      else if method == "ocr" then censusOcr cs
      else none
    let contact := (contactPattern cs).map (fun g => String.mk (stripChars g))
    let licensor := (licensorPattern cs).map (fun g => String.mk (stripChars g))
    [("census", Utah.valOfNat census), ("contact_person", Utah.valOfStr contact),
     ("licensor", Utah.valOfStr licensor)]

end Enhanced

/-! ## `ca_scraper._merge_continued_content`

`re.sub` is modelled by `scrubGo`: a left-to-right scan that, at each
position, either removes a match (continuing after it, as the Python engine
does with non-overlapping matches) or keeps the character.  `ins` is the
replacement text (empty for deletion, a space for the line-number rule). -/

namespace Ca

/-- Generic `re.sub(pattern, ins, ·)` scan; `m` returns the length of a match
starting at the current position.  Fuel is the remaining text length. -/
def scrubGo (m : List Char → Option Nat) (ins : List Char) : Nat → List Char → List Char
  | 0, cs => cs
  | _ + 1, [] => []
  | fuel + 1, c :: cs =>
    match m (c :: cs) with
    | some n => ins ++ scrubGo m ins fuel ((c :: cs).drop n)
    | none => c :: scrubGo m ins fuel cs

/-- Deletion `re.sub(pat, '', ·)` for a literal pattern with `re.IGNORECASE`. -/
def removeAllCI (pat : List Char) (cs : List Char) : List Char :=
  scrubGo (fun s => if pat.isEmpty then none
                    else if ciPrefixAt pat s then some pat.length else none)
    [] cs.length cs

/-- Pattern `.*?\d+-C` on the current line: the nearest digit run followed by `-C`. -/
def seekDigitsDashC : List Char → Option (List Char)
  | [] => none
  | c :: cs =>
    if isDigitCh c then
      let run := (c :: cs).takeWhile isDigitCh
      let rest := (c :: cs).drop run.length
      if ciPrefixAt ("-c".data) rest then some (rest.drop 2) else seekDigitsDashC cs
    else if c == '\n' then none
    else seekDigitsDashC cs

/-- One match of `\*{4}CONTINUED.*?(?:PAGE|page).*?\d+-C` (with
`re.IGNORECASE`, gaps staying on one line) starting at the current position;
returns the matched length. -/
def starContinuedMatch (cs : List Char) : Option Nat :=
  if ciPrefixAt ("****continued".data) cs then
    match ciSeekLine ("page".data) some (cs.drop 13) with
    | some r1 =>
      match seekDigitsDashC r1 with
      | some r2 => some (cs.length - r2.length)
      | none => none
    | none => none
  else none

/-- One match of `\s*\d+\s+(?=[A-Z])` starting at the current position
(whitespace, digits, whitespace, with an uppercase letter looked ahead but
not consumed); returns the consumed length. -/
def numTokenMatch (cs : List Char) : Option Nat :=
  let w1 := (cs.takeWhile isWsChar).length
  let r1 := cs.drop w1
  let d := (r1.takeWhile isDigitCh).length
  if d == 0 then none
  else
    let r2 := r1.drop d
    let w2 := (r2.takeWhile isWsChar).length
    if w2 == 0 then none
    else
      match r2.drop w2 with
      | c :: _ => if isUpperCh c then some (w1 + d + w2) else none
      | [] => none

def scrubStarContinued (cs : List Char) : List Char :=
  scrubGo starContinuedMatch [] cs.length cs

def scrubNumTokens (cs : List Char) : List Char :=
  scrubGo numTokenMatch [' '] cs.length cs

/-- Embedding of `_merge_continued_content(parts)` of `ca_scraper.py`: join the fragments
with spaces, delete the page-break artifacts, collapse whitespace, delete
orphaned line numbers, and strip. -/
def mergeContinuedContent (parts : List String) : String :=
  if parts.isEmpty then ""
  else
    let merged := (String.intercalate (" ") parts).data
    let m1 := scrubStarContinued merged
    let m2 := removeAllCI ("continued on next page".data) m1
    let m3 := removeAllCI ("see next page".data) m2
    let m4 := collapseWs m3
    let m5 := scrubNumTokens m4
    String.mk (stripChars m5)

end Ca

/-! ## `az_inspections/az_inspections_09_2025/azpdf2json.extract_data_with_regex` -/

namespace Az

/-- The `EXTRACTION_PATTERNS` table: field name and the literal label of each
`LABEL\s*\n\s*([^\n]+)` header pattern. -/
def azPatternLabels : List (String × String) :=
  [ ("legal_name", "Legal Name"),
    ("facility_status", "Facility Status"),
    ("address", "Address"),
    ("license_status", "License Status"),
    ("phone", "Phone"),
    ("license_number", "License"),
    ("max_licensed_capacity", "Maximum Licensed Capacity"),
    ("license_effective_date", "License Effective"),
    ("chief_administrative_officer", "Chief Administrative Officer"),
    ("license_expires_date", "License Expires"),
    ("owner_licensee", "Owner / Licensee"),
    ("inspection_number", "Inspection #"),
    ("inspection_date", "Inspection Date(s)"),
    ("inspection_type", "Inspection Type"),
    ("certificate_number", "Certificate Number") ]

/-- Pattern `LABEL\s*\n\s*([^\n]+)` with `re.IGNORECASE`: the label, a whitespace run
containing a newline, then the next line captured. -/
def labelCapture (label : List Char) : List Char → Option (List Char) :=
  ciSearch label (fun r =>
    let w := r.takeWhile isWsChar
    if w.contains '\n' then
      match r.drop w.length with
      | c :: rest => some (c :: rest.takeWhile (fun x => x != '\n'))
      | [] =>
        let tailSeg := w.reverse.takeWhile (fun x => x != '\n')
        if tailSeg.isEmpty then none else some tailSeg.reverse
    else none)

/-- Pattern `License\s+([A-Z]{2}\d+)` with `re.IGNORECASE`, the fallback search used
when the license number capture grabbed site chrome. -/
def licenseCode : List Char → Option (List Char) :=
  ciSearch ("license".data) (fun r =>
    let w := r.takeWhile isWsChar
    if w.isEmpty then none
    else
      match r.drop w.length with
      | a :: b :: rest =>
        if isUpperCh a && isUpperCh b then
          let ds := rest.takeWhile isDigitCh
          if ds.isEmpty then none else some (a :: b :: ds)
        else none
      | _ => none)

/-- Case-sensitive substring test (Python's `in` on strings). -/
def csContains (pat : List Char) : List Char → Bool
  | [] => pat.isPrefixOf []
  | c :: cs => pat.isPrefixOf (c :: cs) || csContains pat cs

/-- One header field: capture, strip, and the `license_number` special case
(`'# to view' in clean_text`). -/
def headerValue (fieldName : String) (label : String) (text : List Char) : Option String :=
  match labelCapture label.data text with
  | some g =>
    let clean := stripChars g
    if fieldName == "license_number" && csContains ("# to view".data) clean then
      match licenseCode text with
      | some code => some (String.mk (stripChars code))
      | none => some ("Not Found")
    else some (String.mk clean)
  | none => none

/-- The header loop: every configured field is written into the result, with
`None` when its pattern did not match. -/
def headerFields (text : List Char) : List (String × Val) :=
  azPatternLabels.map (fun p => (p.1, Utah.valOfStr (headerValue p.1 p.2 text)))

/-- One match of the splitting pattern `(?i)\s*Statement of Deficiency\s*`
starting at the current position; returns the consumed length. -/
def markerMatch (cs : List Char) : Option Nat :=
  let w1 := (cs.takeWhile isWsChar).length
  let r1 := cs.drop w1
  if ciPrefixAt ("statement of deficiency".data) r1 then
    some (w1 + 23 + ((r1.drop 23).takeWhile isWsChar).length)
  else none

/-- The `re.split` scan: pieces between matches, in order. -/
def splitGo : Nat → List Char → List Char → List (List Char)
  | 0, cs, acc => [acc.reverse ++ cs]
  | fuel + 1, cs, acc =>
    match markerMatch cs with
    | some n => acc.reverse :: splitGo fuel (cs.drop n) []
    | none =>
      match cs with
      | [] => [acc.reverse]
      | c :: rest => splitGo fuel rest (c :: acc)

def azSplit (text : List Char) : List (List Char) := splitGo text.length text []

/-- Segmentation `re.split(r"(?i)\s*Statement of Deficiency\s*", text)[1:]`: the record
segments, one per deficiency, front matter discarded. -/
def azChunks (text : List Char) : List (List Char) := (azSplit text).drop 1

/-- Index of the first case-insensitive occurrence of `pat`. -/
def findIdxCI (pat : List Char) : List Char → Option Nat
  | [] => if ciPrefixAt pat [] then some 0 else none
  | c :: cs =>
    if ciPrefixAt pat (c :: cs) then some 0
    else (findIdxCI pat cs).map (fun i => i + 1)

/-- One deficiency chunk: locate the `Rule` and `Evidence` labels, slice the
text between and after them, split off `Findings include:`, and
whitespace-collapse the three parts.  Chunks missing either label are
skipped. -/
def parseChunk (chunk : List Char) : Option (String × String × String) :=
  match findIdxCI ("rule".data) chunk, findIdxCI ("evidence".data) chunk with
  | some ri, some ei =>
    let ruleText := stripChars ((chunk.drop (ri + 4)).take (ei - (ri + 4)))
    let mainBlock := stripChars (chunk.drop (ei + 8))
    match findIdxCI ("findings include:".data) mainBlock with
    | some fi =>
      some (String.mk (collapseWs ruleText),
            String.mk (collapseWs (stripChars (mainBlock.take fi))),
            String.mk (collapseWs (stripChars (mainBlock.drop (fi + 17)))))
    | none =>
      some (String.mk (collapseWs ruleText), String.mk (collapseWs mainBlock), "")
  | _, _ => none

/-- Embedding of `extract_data_with_regex(text, EXTRACTION_PATTERNS)` of `azpdf2json.py`:
the header fields in declaration order, then the `deficiencies` entry
(the string `"no deficiencies"` when no section marker was found). -/
def extract_data_with_regex (text : String) : List (String × Val) :=
  let cs := text.data
  headerFields cs ++
    [("deficiencies",
      match azChunks cs with
      | [] => Val.str ("no deficiencies")
      | chunks => Val.defs (chunks.filterMap parseChunk))]

end Az

/-! ## Derived definitions used in theorem statements -/

/-- The non-whitespace characters of a text, lower-cased: the letters a
case-insensitive marker occurrence must carry, in order. -/
def lowLetters (l : List Char) : List Char :=
  (l.filter (fun c => !isWsChar c)).map lowerCh

/-! # Theorems -/

/-! ### Character-level lemmas -/

theorem isWs_lowerCh (c : Char) : isWsChar (lowerCh c) = isWsChar c := by
  unfold lowerCh
  split <;> rfl

theorem isWs_of_lowerCh_eq {p c : Char} (h : lowerCh p = lowerCh c) :
    isWsChar p = isWsChar c := by
  rw [← isWs_lowerCh p, ← isWs_lowerCh c, h]

theorem ws_not_digit (c : Char) (h : isWsChar c = true) : isDigitCh c = false := by
  unfold isWsChar at h
  simp only [Bool.or_eq_true, beq_iff_eq] at h
  rcases h with ((((h | h) | h) | h) | h) | h <;> subst h <;> rfl

/-! ### Sublist and scanning lemmas -/

/-- A sublist always passes the greedy subsequence test. -/
theorem subseqB_of_sublist : ∀ {l₁ l₂ : List Char}, List.Sublist l₁ l₂ → subseqB l₁ l₂ = true := by
  intro l₁ l₂ h
  induction l₂ generalizing l₁ with
  | nil => cases h; rfl
  | cons b bs ih =>
    cases l₁ with
    | nil => rfl
    | cons a as =>
      rw [subseqB]
      by_cases hab : a = b
      · subst hab
        simp only [beq_self_eq_true, if_true]
        cases h with
        | cons _ h' => exact ih (List.sublist_of_cons_sublist h')
        | cons₂ _ h' => exact ih h'
      · simp only [beq_eq_false_iff_ne.mpr hab, Bool.false_eq_true, if_false]
        cases h with
        | cons _ h' => exact ih h'
        | cons₂ _ h' => exact absurd rfl hab

theorem dropWhile_isWs_of_all : ∀ {l : List Char}, l.all isWsChar = true →
    l.dropWhile isWsChar = [] := by
  intro l h
  induction l with
  | nil => rfl
  | cons c cs ih =>
    simp only [List.all_cons, Bool.and_eq_true] at h
    simpa [List.dropWhile, h.1] using ih h.2

theorem stripChars_of_all_ws {l : List Char} (h : l.all isWsChar = true) :
    stripChars l = [] := by
  simp [stripChars, dropWhile_isWs_of_all h]

theorem stripChars_sublist (l : List Char) : List.Sublist (stripChars l) l := by
  unfold stripChars
  have h1 : List.Sublist (l.dropWhile isWsChar) l := List.dropWhile_sublist isWsChar
  have h2 : List.Sublist ((l.dropWhile isWsChar).reverse.dropWhile isWsChar)
      (l.dropWhile isWsChar).reverse := List.dropWhile_sublist isWsChar
  have h3 := h2.reverse
  rw [List.reverse_reverse] at h3
  exact h3.trans h1

/-! ### C1: declared pattern order decides which pattern fires -/

/-- C1.  For every pattern chain and every text, when the pattern at position
`i` matches (and no earlier pattern does) while a looser pattern at a later
position `j` also matches, the chain's result carries position `i`'s label and
value: declaration order is the tie-break, first match wins, for all declared
orderings. -/
theorem c1_first_declared_pattern_wins {α β : Type}
    (ps : List (α × (List Char → Option β))) (t : List Char) (i j : Nat)
    (hi : i < ps.length) (hj : j < ps.length) (hij : i < j) (v : β)
    (hmatch : (ps.get ⟨i, hi⟩).2 t = some v)
    (hlooser : ((ps.get ⟨j, hj⟩).2 t).isSome = true)
    (hfirst : ∀ k (hk : k < i), (ps.get ⟨k, Nat.lt_trans hk hi⟩).2 t = none) :
    firstMatch ps t = some ((ps.get ⟨i, hi⟩).1, v) := by
  clear hij hj hlooser
  induction ps generalizing i with
  | nil => exact absurd hi (Nat.not_lt_zero i)
  | cons p rest ih =>
    cases i with
    | zero =>
      simp only [List.get] at hmatch ⊢
      rw [firstMatch]
      rcases p with ⟨lbl, m⟩
      simp only at hmatch ⊢
      rw [hmatch]
    | succ i' =>
      have h0 : p.2 t = none := hfirst 0 (Nat.zero_lt_succ i')
      rcases p with ⟨lbl, m⟩
      rw [firstMatch]
      simp only at h0
      rw [h0]
      simp only [List.get] at hmatch ⊢
      exact ih i' (Nat.lt_of_succ_lt_succ hi) hmatch
        (fun k hk => hfirst (k + 1) (Nat.succ_lt_succ hk))

/-- Witness for C1: a two-pattern chain where the stricter first pattern and
the looser second pattern both match the text `"x"`; the result carries the
first pattern's label and value. -/
theorem c1_first_declared_pattern_wins_witness :
    firstMatch
      [(("P1" : String), fun t => if t = ("x".data) then some (1 : Nat) else none),
       (("P2"), fun t => if t.length ≤ 1 then some 2 else none)] ("x".data) =
      some (("P1"), 1) :=
  c1_first_declared_pattern_wins _ _ 0 1 (by decide) (by decide) (by decide) 1
    (by decide) (by decide) (fun k hk => absurd hk (Nat.not_lt_zero k))

/-! ### C4: a census/capacity ordering violation is flagged, not repaired -/

/-- C4.  Whenever both census and capacity are extracted and census exceeds
capacity, the built record keeps both numeric values unchanged and carries
exactly one `validation_warning` entry holding the human-readable warning
string. -/
theorem c4_census_over_capacity_flagged (c k : Nat) (cp l : Option String)
    (h : k < c) :
    Utah.buildChecklistResult (some c) (some k) cp l =
      [("census", Val.int c), ("capacity", Val.int k),
       ("contact_person", Utah.valOfStr cp), ("licensor", Utah.valOfStr l),
       ("validation_warning", Val.str (Utah.warnText c k))] ∧
    (Utah.buildChecklistResult (some c) (some k) cp l).countP
      (fun p => p.1 == "validation_warning") = 1 := by
  have heq : Utah.buildChecklistResult (some c) (some k) cp l =
      [("census", Val.int c), ("capacity", Val.int k),
       ("contact_person", Utah.valOfStr cp), ("licensor", Utah.valOfStr l),
       ("validation_warning", Val.str (Utah.warnText c k))] := by
    unfold Utah.buildChecklistResult Utah.validation_warning_of
    simp [h, Utah.valOfNat]
  refine ⟨heq, ?_⟩
  rw [heq]
  rfl

/-- Witness for C4 at the spec's own numbers: census 12, capacity 10. -/
theorem c4_census_over_capacity_flagged_witness :
    Utah.buildChecklistResult (some 12) (some 10) none none =
      [("census", Val.int 12), ("capacity", Val.int 10),
       ("contact_person", Utah.valOfStr none), ("licensor", Utah.valOfStr none),
       ("validation_warning", Val.str (Utah.warnText 12 10))] ∧
    (Utah.buildChecklistResult (some 12) (some 10) none none).countP
      (fun p => p.1 == "validation_warning") = 1 :=
  c4_census_over_capacity_flagged 12 10 none none (by decide)

/-! ### C5: no section marker means an empty segment list -/

theorem ciContains_of_ciPrefixAt {pat s : List Char} (h : ciPrefixAt pat s = true) :
    ciContains pat s = true := by
  cases s with
  | nil => simpa [ciContains] using h
  | cons c cs => simp [ciContains, h]

theorem ciContains_of_drop {pat cs : List Char} :
    ∀ n, ciContains pat (cs.drop n) = true → ciContains pat cs = true := by
  induction cs with
  | nil => intro n h; simpa using h
  | cons c rest ih =>
    intro n h
    cases n with
    | zero => exact h
    | succ n' =>
      simp only [List.drop] at h
      have := ih n' h
      simp [ciContains, this]

theorem Az_markerMatch_none_of_not_contains {cs : List Char}
    (h : ciContains ("statement of deficiency".data) cs = false) :
    Az.markerMatch cs = none := by
  unfold Az.markerMatch
  by_cases hpre : ciPrefixAt ("statement of deficiency".data)
      (cs.drop (cs.takeWhile isWsChar).length) = true
  · exact absurd (ciContains_of_drop _ (ciContains_of_ciPrefixAt hpre)) (by simp [h])
  · simp [hpre]

theorem Az_splitGo_no_marker (fuel : Nat) :
    ∀ (cs acc : List Char), ciContains ("statement of deficiency".data) cs = false →
      Az.splitGo fuel cs acc = [acc.reverse ++ cs] := by
  induction fuel with
  | zero => intro cs acc _; rfl
  | succ fuel ih =>
    intro cs acc h
    have hm := Az_markerMatch_none_of_not_contains h
    cases cs with
    | nil => simp [Az.splitGo, hm]
    | cons c rest =>
      have hrest : ciContains ("statement of deficiency".data) rest = false := by
        rw [ciContains] at h
        exact (Bool.or_eq_false_iff.mp h).2
      have hstep : Az.splitGo (fuel + 1) (c :: rest) acc =
          (match Az.markerMatch (c :: rest) with
           | some n => acc.reverse :: Az.splitGo fuel ((c :: rest).drop n) []
           | none => Az.splitGo fuel rest (c :: acc)) := rfl
      rw [hstep, hm]
      show Az.splitGo fuel rest (c :: acc) = [acc.reverse ++ c :: rest]
      rw [ih rest (c :: acc) hrest]
      simp

/-- C5.  When the text contains no "Statement of Deficiency" marker (in any
capitalisation), the segmenter returns the empty list of record segments: the
split yields only front matter, which is discarded. -/
theorem c5_no_marker_empty_segments (text : String)
    (h : ciContains ("statement of deficiency".data) text.data = false) :
    Az.azChunks text.data = [] := by
  unfold Az.azChunks Az.azSplit
  rw [Az_splitGo_no_marker _ _ _ h]
  rfl

/-- Witness for C5 on a concrete marker-free document. -/
theorem c5_no_marker_empty_segments_witness :
    Az.azChunks ("hello world".data) = [] :=
  c5_no_marker_empty_segments ("hello world") (by decide)

/-! ### C9: whitespace-only input returns all-null fields immediately -/

/-- C9.  On an empty or whitespace-only text, `extract_data_from_text`
returns the all-null field dictionary under every method, in both the Utah
scraper and the enhanced extractor, without consulting any pattern. -/
theorem c9_ws_only_all_null (text method : String)
    (h : text.data.all isWsChar = true) :
    Utah.extract_data_from_text text method =
      [("census", Val.null), ("capacity", Val.null),
       ("contact_person", Val.null), ("licensor", Val.null)] ∧
    Enhanced.extract_data_from_text text method =
      [("census", Val.null), ("contact_person", Val.null), ("licensor", Val.null)] := by
  have hs : stripChars text.data = [] := stripChars_of_all_ws h
  constructor
  · unfold Utah.extract_data_from_text
    rw [hs]
    rfl
  · unfold Enhanced.extract_data_from_text
    rw [hs]
    rfl

/-- Witness for C9 on a concrete whitespace-only text. -/
theorem c9_ws_only_all_null_witness :
    Utah.extract_data_from_text (" \t\n ") ("easyocr") =
      [("census", Val.null), ("capacity", Val.null),
       ("contact_person", Val.null), ("licensor", Val.null)] ∧
    Enhanced.extract_data_from_text (" \t\n ") ("easyocr") =
      [("census", Val.null), ("contact_person", Val.null), ("licensor", Val.null)] :=
  c9_ws_only_all_null (" \t\n ") ("easyocr") (by decide)

/-! ### C2: the document-processing call never raises -/

/-- C2 counterexample.  A PDF that opens with one page but yields zero
extractable characters from both the text layer and every OCR rotation: the
claim says this ought to fail with `EmptyDocument`, but the call returns the
`all_failed` record as ordinary data (no `EmptyDocument` exception exists
anywhere in the code). -/
theorem c2_zero_chars_returns_data :
    extract_checklist_data ⟨true, 1, (""), true, false, true, fun _ => ("")⟩ =
      (Except.ok allFailedRecord, true) := rfl

/-- C2 (amended).  `extract_checklist_data` never lets any exception escape:
the outer handler converts every internal failure into the `error` record, so
the caller always receives a result dictionary. -/
theorem c2_never_raises (m : PdfModel) :
    ∃ r, (extract_checklist_data m).1 = Except.ok r := by
  unfold extract_checklist_data
  cases hb : extract_checklist_body m with
  | ok rb =>
    obtain ⟨r, b⟩ := rb
    exact ⟨r, rfl⟩
  | error e => exact ⟨errorRecord, rfl⟩

/-! ### C3: when the OCR fallback runs -/

/-- C3 counterexample.  A PDF whose direct text extraction produces the
non-whitespace text `"zzz zzz"` (which matches no field pattern): the OCR
pass is still invoked, refuting the claim that OCR runs only on empty or
whitespace-only stage-1 text. -/
theorem c3_ocr_runs_on_nonempty_text :
    (extract_checklist_data ⟨true, 1, ("zzz zzz"), true, false, true, fun _ => ("")⟩).2 = true ∧
    (stripChars (("zzz zzz").data)).isEmpty = false :=
  ⟨rfl, rfl⟩

/-- C3 (amended).  For a PDF that opens with at least one page, the OCR
fallback is reached exactly when stage-1 text is empty/whitespace-only or the
text-method extraction yields no truthy field. -/
theorem c3_ocr_iff_stage1_failed (m : PdfModel) (h1 : m.openOk = true)
    (h2 : m.pageCount ≠ 0) :
    ((extract_checklist_data m).2 = true ↔
      ((stripChars m.pageText.data).isEmpty = true ∨
        anyVal (Utah.extract_data_from_text m.pageText ("text")) = false)) := by
  have h2' : (m.pageCount == 0) = false := by simpa using h2
  by_cases hstrip : (stripChars m.pageText.data).isEmpty = true
  · have hflag : (extract_checklist_data m).2 = true := by
      unfold extract_checklist_data extract_checklist_body
      cases havail : m.easyocrAvailable
      · simp [h1, h2', hstrip, havail]
      · rcases hocr : ocrStage m with e | o
        · simp [h1, h2', hstrip, havail, hocr]
        · cases o <;> simp [h1, h2', hstrip, havail, hocr]
    simp [hflag, hstrip]
  · have hstrip' : (stripChars m.pageText.data).isEmpty = false :=
      Bool.eq_false_iff.mpr hstrip
    by_cases hany : anyVal (Utah.extract_data_from_text m.pageText ("text")) = true
    · have hflag : (extract_checklist_data m).2 = false := by
        unfold extract_checklist_data extract_checklist_body
        simp [h1, h2', hstrip', hany]
      simp [hflag, hstrip', hany]
    · have hany' : anyVal (Utah.extract_data_from_text m.pageText ("text")) = false :=
        Bool.eq_false_iff.mpr hany
      have hflag : (extract_checklist_data m).2 = true := by
        unfold extract_checklist_data extract_checklist_body
        cases havail : m.easyocrAvailable
        · simp [h1, h2', hstrip', hany', havail]
        · rcases hocr : ocrStage m with e | o
          · simp [h1, h2', hstrip', hany', havail, hocr]
          · cases o <;> simp [h1, h2', hstrip', hany', havail, hocr]
      simp [hflag, hany']

/-- Witness for C3 (amended) at a concrete model: no text layer, OCR not
available, the fallback branch is reached. -/
theorem c3_ocr_iff_stage1_failed_witness :
    ((extract_checklist_data ⟨true, 1, (""), false, false, false, fun _ => ("")⟩).2 = true ↔
      ((stripChars (("") : String).data).isEmpty = true ∨
        anyVal (Utah.extract_data_from_text ("") ("text")) = false)) :=
  c3_ocr_iff_stage1_failed ⟨true, 1, (""), false, false, false, fun _ => ("")⟩ rfl
    (by decide)

/-! ### C10: presence of the `validation_warning` key -/

/-- The key-presence behaviour of the final dictionary build: the
`validation_warning` key exists exactly when census and capacity are both
numeric and census exceeds capacity. -/
theorem c10_build_iff (oc ocap : Option Nat) (cp l : Option String) :
    (lookupKey ("validation_warning") (Utah.buildChecklistResult oc ocap cp l)).isSome = true ↔
    (∃ c k : Nat,
      lookupKey ("census") (Utah.buildChecklistResult oc ocap cp l) = some (Val.int c) ∧
      lookupKey ("capacity") (Utah.buildChecklistResult oc ocap cp l) = some (Val.int k) ∧
      k < c) := by
  cases oc with
  | none =>
    constructor
    · intro h
      exact absurd h (by simp [Utah.buildChecklistResult, Utah.validation_warning_of, lookupKey])
    · rintro ⟨c, k, hc, hk, hlt⟩
      simp [Utah.buildChecklistResult, Utah.validation_warning_of, lookupKey, Utah.valOfNat] at hc
  | some c0 =>
    cases ocap with
    | none =>
      constructor
      · intro h
        exact absurd h
          (by simp [Utah.buildChecklistResult, Utah.validation_warning_of, lookupKey])
      · rintro ⟨c, k, hc, hk, hlt⟩
        simp [Utah.buildChecklistResult, Utah.validation_warning_of, lookupKey, Utah.valOfNat] at hk
    | some k0 =>
      by_cases hck : k0 < c0
      · have hb : Utah.buildChecklistResult (some c0) (some k0) cp l =
            [("census", Val.int c0), ("capacity", Val.int k0),
             ("contact_person", Utah.valOfStr cp), ("licensor", Utah.valOfStr l),
             ("validation_warning", Val.str (Utah.warnText c0 k0))] := by
          unfold Utah.buildChecklistResult Utah.validation_warning_of
          simp [hck, Utah.valOfNat]
        rw [hb]
        constructor
        · intro _
          exact ⟨c0, k0, rfl, rfl, hck⟩
        · intro _
          rfl
      · have hb : Utah.buildChecklistResult (some c0) (some k0) cp l =
            [("census", Val.int c0), ("capacity", Val.int k0),
             ("contact_person", Utah.valOfStr cp), ("licensor", Utah.valOfStr l)] := by
          unfold Utah.buildChecklistResult Utah.validation_warning_of
          simp [hck, Utah.valOfNat]
        rw [hb]
        constructor
        · intro h
          exact absurd h (by simp [lookupKey])
        · rintro ⟨c, k, hc, hk, hlt⟩
          simp [lookupKey] at hc hk
          subst hc
          subst hk
          exact absurd hlt hck

/-- C10.  In `extract_data_from_text`'s result the `validation_warning` key
is present exactly when census and capacity were both extracted and census
strictly exceeds capacity; with equal values, or a missing value, the key is
absent rather than null. -/
theorem c10_validation_warning_key (text method : String) :
    (lookupKey ("validation_warning") (Utah.extract_data_from_text text method)).isSome = true ↔
    (∃ c k : Nat,
      lookupKey ("census") (Utah.extract_data_from_text text method) = some (Val.int c) ∧
      lookupKey ("capacity") (Utah.extract_data_from_text text method) = some (Val.int k) ∧
      k < c) := by
  unfold Utah.extract_data_from_text
  split
  · constructor
    · intro h
      exact absurd h (by simp [lookupKey])
    · rintro ⟨c, k, hc, hk, hlt⟩
      simp [lookupKey] at hc
  · exact c10_build_iff _ _ _ _

/-! ### C8: every declared field key is present in the result -/

/-- Key presence in the final Utah dictionary, whatever was extracted. -/
theorem utah_build_keys (oc ocap : Option Nat) (cp l : Option String) :
    (lookupKey ("census") (Utah.buildChecklistResult oc ocap cp l)).isSome = true ∧
    (lookupKey ("capacity") (Utah.buildChecklistResult oc ocap cp l)).isSome = true ∧
    (lookupKey ("contact_person") (Utah.buildChecklistResult oc ocap cp l)).isSome = true ∧
    (lookupKey ("licensor") (Utah.buildChecklistResult oc ocap cp l)).isSome = true := by
  cases hw : Utah.validation_warning_of oc ocap <;>
    · unfold Utah.buildChecklistResult
      rw [hw]
      exact ⟨rfl, rfl, rfl, rfl⟩

/-- Key presence in the Arizona header map: any configured field name can be
looked up in the mapped pattern table. -/
theorem az_lookup_mem (pl : List (String × String)) (rest : List (String × Val))
    (text : List Char) (name : String) (h : pl.any (fun p => p.1 == name) = true) :
    (lookupKey name
      ((pl.map (fun p => (p.1, Utah.valOfStr (Az.headerValue p.1 p.2 text)))) ++ rest)).isSome =
      true := by
  induction pl with
  | nil => simp at h
  | cons q qs ih =>
    simp only [List.any_cons, Bool.or_eq_true, beq_iff_eq] at h
    by_cases hq : q.1 = name
    · simp [lookupKey, hq]
    · rcases h with h | h
      · exact absurd h hq
      · simpa [lookupKey, hq] using ih (by simpa using h)

/-- C8.  Every declared field key is present in the extraction result: the
four Utah keys under both methods and every configured Arizona header field,
with a null value when no pattern matched (and the extraction functions are
total, so they never raise). -/
theorem c8_field_keys_always_present (text method : String) :
    ((lookupKey ("census") (Utah.extract_data_from_text text method)).isSome = true ∧
     (lookupKey ("capacity") (Utah.extract_data_from_text text method)).isSome = true ∧
     (lookupKey ("contact_person") (Utah.extract_data_from_text text method)).isSome = true ∧
     (lookupKey ("licensor") (Utah.extract_data_from_text text method)).isSome = true) ∧
    Az.azPatternLabels.all
      (fun p => (lookupKey p.1 (Az.extract_data_with_regex text)).isSome) = true := by
  constructor
  · unfold Utah.extract_data_from_text
    split
    · exact ⟨rfl, rfl, rfl, rfl⟩
    · exact utah_build_keys _ _ _ _
  · rw [List.all_eq_true]
    intro p hp
    unfold Az.extract_data_with_regex Az.headerFields
    exact az_lookup_mem _ _ _ _ (List.any_eq_true.mpr ⟨p, hp, by simp⟩)

/-! ### C6: behaviour of the OCR rotation loop -/

/-- Invariant of the rotation loop, for an arbitrary starting best text: when
no attempt broke the loop every attempt was consumed and none is longer than
the selected text; when the loop broke at an attempt, that attempt is
strictly longer than the starting best and every earlier attempt, its
extraction is the returned result, at least one of its fields is truthy, and
exactly the attempts up to it were consumed. -/
theorem ocrLoop_general (as : List (Nat × String)) :
    ∀ (best : String) (ang : Nat) (b : String) (g : Nat)
      (r : Option (List (String × Val))) (k : Nat),
      ocrLoop as best ang none = (b, g, r, k) →
      (r = none →
        k = as.length ∧ best.length ≤ b.length ∧
        ∀ j (hj : j < as.length), ((as.get ⟨j, hj⟩).2).length ≤ b.length) ∧
      (∀ tr, r = some tr →
        ∃ i, ∃ hi : i < as.length,
          k = i + 1 ∧ b = (as.get ⟨i, hi⟩).2 ∧ g = (as.get ⟨i, hi⟩).1 ∧
          tr = Utah.extract_data_from_text b ("easyocr") ∧ anyVal tr = true ∧
          best.length < b.length ∧
          ∀ j (hj : j < i), ((as.get ⟨j, Nat.lt_trans hj hi⟩).2).length < b.length) := by
  induction as with
  | nil =>
    intro best ang b g r k h
    rw [ocrLoop] at h
    simp only [Prod.mk.injEq] at h
    obtain ⟨hb, hg, hr, hk⟩ := h
    subst hb; subst hg; subst hr; subst hk
    refine ⟨fun _ => ⟨rfl, Nat.le_refl _, ?_⟩, fun tr htr => by cases htr⟩
    intro j hj
    exact absurd hj (Nat.not_lt_zero j)
  | cons hd rest ih =>
    rcases hd with ⟨a, t⟩
    intro best ang b g r k h
    rw [ocrLoop] at h
    by_cases hlen : best.length < t.length
    · rw [if_pos hlen] at h
      by_cases hany : anyVal (Utah.extract_data_from_text t ("easyocr")) = true
      · rw [if_pos hany] at h
        simp only [Prod.mk.injEq] at h
        obtain ⟨hb, hg, hr, hk⟩ := h
        subst hb; subst hg; subst hk
        constructor
        · intro hr'
          rw [← hr] at hr'
          cases hr'
        · intro tr htr
          rw [← hr] at htr
          obtain rfl : Utah.extract_data_from_text t ("easyocr") = tr :=
            Option.some.inj htr
          refine ⟨0, Nat.zero_lt_succ _, rfl, rfl, rfl, rfl, hany, hlen, ?_⟩
          intro j hj
          exact absurd hj (Nat.not_lt_zero j)
      · rw [if_neg hany] at h
        rcases hrec : ocrLoop rest t a none with ⟨b', g', r', k'⟩
        rw [hrec] at h
        simp only [Prod.mk.injEq] at h
        obtain ⟨hb, hg, hr, hk⟩ := h
        subst hb; subst hg; subst hr; subst hk
        have IH := ih t a b' g' r' k' hrec
        constructor
        · intro hr'
          obtain ⟨hk1, hk2, hk3⟩ := IH.1 hr'
          refine ⟨by simp [hk1], Nat.le_trans (Nat.le_of_lt hlen) hk2, ?_⟩
          intro j hj
          cases j with
          | zero => exact hk2
          | succ j' =>
            simpa using hk3 j' (Nat.lt_of_succ_lt_succ hj)
        · intro tr htr
          obtain ⟨i', hi', h1, h2, h3, h4, h5, h6, h7⟩ := IH.2 tr htr
          refine ⟨i' + 1, Nat.succ_lt_succ hi', by simp [h1], h2, h3, h4, h5,
            Nat.lt_trans hlen h6, ?_⟩
          intro j hj
          cases j with
          | zero => exact h6
          | succ j' => exact h7 j' (Nat.lt_of_succ_lt_succ hj)
    · rw [if_neg hlen] at h
      rcases hrec : ocrLoop rest best ang none with ⟨b', g', r', k'⟩
      rw [hrec] at h
      simp only [Prod.mk.injEq] at h
      obtain ⟨hb, hg, hr, hk⟩ := h
      subst hb; subst hg; subst hr; subst hk
      have IH := ih best ang b' g' r' k' hrec
      have htb : t.length ≤ best.length := Nat.le_of_not_lt hlen
      constructor
      · intro hr'
        obtain ⟨hk1, hk2, hk3⟩ := IH.1 hr'
        refine ⟨by simp [hk1], hk2, ?_⟩
        intro j hj
        cases j with
        | zero => exact Nat.le_trans htb hk2
        | succ j' => simpa using hk3 j' (Nat.lt_of_succ_lt_succ hj)
      · intro tr htr
        obtain ⟨i', hi', h1, h2, h3, h4, h5, h6, h7⟩ := IH.2 tr htr
        refine ⟨i' + 1, Nat.succ_lt_succ hi', by simp [h1], h2, h3, h4, h5, h6, ?_⟩
        intro j hj
        cases j with
        | zero => exact Nat.lt_of_le_of_lt htb h6
        | succ j' => exact h7 j' (Nat.lt_of_succ_lt_succ hj)

/-- C6 counterexample.  Rotation 0 recognises a long text matching no field;
rotation 90 recognises a shorter text that is structurally plausible (census
and capacity match).  The loop does not stop at the plausible attempt: it
consumes all four rotations, selects rotation 0, and returns no plausible
result — because an attempt is only tested when it is strictly longer than
the best text so far. -/
theorem c6_no_early_stop_on_shorter_plausible_attempt :
    ocrLoop
      [((0 : Nat), ("the quick dog jumped over the lazy fox again today")),
       (90, ("Present 4 Capacity 9")), (180, ("")), (270, (""))] ("") 0 none =
      (("the quick dog jumped over the lazy fox again today"), 0, none, 4) ∧
    anyVal (Utah.extract_data_from_text ("Present 4 Capacity 9") ("easyocr")) = true :=
  ⟨rfl, rfl⟩

/-- C6 (amended).  The rotation loop consumes attempts in order.  If it
never breaks, all attempts are consumed and the selected text is at least as
long as every attempt's.  If it breaks, it breaks at the first attempt that
is both strictly longer than every earlier attempt and structurally
plausible (some field extracted truthy); exactly the attempts up to it are
consumed and its extraction is returned.  An attempt not strictly longer
than the current best is never tested for plausibility. -/
theorem c6_ocr_loop_early_stop (as : List (Nat × String)) (b : String) (g : Nat)
    (r : Option (List (String × Val))) (k : Nat)
    (h : ocrLoop as ("") 0 none = (b, g, r, k)) :
    (r = none →
      k = as.length ∧ ∀ j (hj : j < as.length), ((as.get ⟨j, hj⟩).2).length ≤ b.length) ∧
    (∀ tr, r = some tr →
      ∃ i, ∃ hi : i < as.length,
        k = i + 1 ∧ b = (as.get ⟨i, hi⟩).2 ∧ g = (as.get ⟨i, hi⟩).1 ∧
        tr = Utah.extract_data_from_text b ("easyocr") ∧ anyVal tr = true ∧
        ∀ j (hj : j < i), ((as.get ⟨j, Nat.lt_trans hj hi⟩).2).length < b.length) := by
  have H := ocrLoop_general as ("") 0 b g r k h
  refine ⟨fun hr => ⟨(H.1 hr).1, (H.1 hr).2.2⟩, fun tr htr => ?_⟩
  obtain ⟨i, hi, h1, h2, h3, h4, h5, _, h7⟩ := H.2 tr htr
  exact ⟨i, hi, h1, h2, h3, h4, h5, h7⟩

/-- Witness for C6 (amended) on a single plausible attempt: the loop breaks
at it immediately. -/
theorem c6_ocr_loop_early_stop_witness :
    ((some (Utah.extract_data_from_text ("Present 4 Capacity 9") ("easyocr")) = none →
      (1 : Nat) = [((0 : Nat), ("Present 4 Capacity 9"))].length ∧
      ∀ j (hj : j < [((0 : Nat), ("Present 4 Capacity 9"))].length),
        ((([((0 : Nat), ("Present 4 Capacity 9"))].get ⟨j, hj⟩).2).length ≤
          ("Present 4 Capacity 9").length)) ∧
    (∀ tr, some (Utah.extract_data_from_text ("Present 4 Capacity 9") ("easyocr")) = some tr →
      ∃ i, ∃ hi : i < [((0 : Nat), ("Present 4 Capacity 9"))].length,
        (1 : Nat) = i + 1 ∧
        ("Present 4 Capacity 9") = ([((0 : Nat), ("Present 4 Capacity 9"))].get ⟨i, hi⟩).2 ∧
        (0 : Nat) = ([((0 : Nat), ("Present 4 Capacity 9"))].get ⟨i, hi⟩).1 ∧
        tr = Utah.extract_data_from_text ("Present 4 Capacity 9") ("easyocr") ∧
        anyVal tr = true ∧
        ∀ j (hj : j < i),
          ((([((0 : Nat), ("Present 4 Capacity 9"))].get
              ⟨j, Nat.lt_trans hj hi⟩).2).length <
            ("Present 4 Capacity 9").length))) :=
  c6_ocr_loop_early_stop _ _ _ _ _ rfl

/-! ### C7: continuation-marker stripping in the merger -/

theorem ciPrefixAt_lowLetters : ∀ (pat s : List Char), ciPrefixAt pat s = true →
    List.Sublist (lowLetters pat) (lowLetters s) := by
  intro pat
  induction pat with
  | nil => intro s _; exact List.nil_sublist _
  | cons p ps ih =>
    intro s h
    cases s with
    | nil => cases h
    | cons c cs =>
      rw [ciPrefixAt] at h
      simp only [Bool.and_eq_true, beq_iff_eq] at h
      obtain ⟨hpc, hrest⟩ := h
      have hws : isWsChar p = isWsChar c := isWs_of_lowerCh_eq hpc
      by_cases hwp : isWsChar p = true
      · have hwc : isWsChar c = true := by rw [← hws]; exact hwp
        have e1 : lowLetters (p :: ps) = lowLetters ps := by simp [lowLetters, hwp]
        have e2 : lowLetters (c :: cs) = lowLetters cs := by simp [lowLetters, hwc]
        rw [e1, e2]
        exact ih cs hrest
      · have hwc : ¬ isWsChar c = true := by rw [← hws]; exact hwp
        have e1 : lowLetters (p :: ps) = lowerCh p :: lowLetters ps := by
          simp [lowLetters, hwp]
        have e2 : lowLetters (c :: cs) = lowerCh c :: lowLetters cs := by
          simp [lowLetters, hwc]
        rw [e1, e2, hpc]
        exact List.Sublist.cons₂ _ (ih cs hrest)

theorem ciContains_lowLetters : ∀ (pat cs : List Char), ciContains pat cs = true →
    List.Sublist (lowLetters pat) (lowLetters cs) := by
  intro pat cs
  induction cs with
  | nil =>
    intro h
    exact ciPrefixAt_lowLetters pat [] (by simpa [ciContains] using h)
  | cons c cs' ih =>
    intro h
    rw [ciContains] at h
    simp only [Bool.or_eq_true] at h
    rcases h with h | h
    · exact ciPrefixAt_lowLetters _ _ h
    · refine (ih h).trans ?_
      have hsub : List.Sublist cs' (c :: cs') := List.Sublist.cons c (List.Sublist.refl cs')
      exact (hsub.filter _).map _

/-- A scrub pass deletes characters and inserts only its replacement text:
filtering with any predicate false on the replacement yields a sublist. -/
theorem scrubGo_filter (m : List Char → Option Nat) (ins : List Char) (p : Char → Bool)
    (hins : ins.filter p = []) :
    ∀ (fuel : Nat) (cs : List Char),
      List.Sublist ((Ca.scrubGo m ins fuel cs).filter p) (cs.filter p) := by
  intro fuel
  induction fuel with
  | zero => intro cs; exact List.Sublist.refl _
  | succ fuel ih =>
    intro cs
    cases cs with
    | nil => exact List.Sublist.refl _
    | cons c cs' =>
      rw [Ca.scrubGo]
      cases hm : m (c :: cs') with
      | some n =>
        rw [List.filter_append, hins, List.nil_append]
        exact (ih _).trans ((List.drop_sublist n (c :: cs')).filter p)
      | none =>
        by_cases hpc : p c = true
        · simpa [List.filter_cons, hpc] using List.Sublist.cons₂ c (ih cs')
        · simpa [List.filter_cons, hpc] using ih cs'

/-- Whitespace collapsing preserves the non-whitespace character sequence
exactly (for any predicate false on whitespace). -/
theorem collapseWsGo_filter (p : Char → Bool) (hws : ∀ c, isWsChar c = true → p c = false) :
    ∀ (cs : List Char) (inRun : Bool), (collapseWsGo cs inRun).filter p = cs.filter p := by
  intro cs
  induction cs with
  | nil => intro b; rfl
  | cons c cs' ih =>
    intro b
    by_cases hwc : isWsChar c = true
    · have hpc : p c = false := hws c hwc
      have hsp : p ' ' = false := hws ' ' rfl
      cases b <;> simp [collapseWsGo, hwc, List.filter_cons, hpc, hsp, ih]
    · have hwc' : isWsChar c = false := Bool.eq_false_iff.mpr hwc
      cases b <;> simp [collapseWsGo, hwc', List.filter_cons, ih]

/-- The merged text's characters (under any predicate false on whitespace)
form a sublist of the joined fragments' characters: the merger never invents
non-whitespace characters. -/
theorem mergeContinuedContent_filter (p : Char → Bool)
    (hws : ∀ c, isWsChar c = true → p c = false) (parts : List String) :
    List.Sublist ((Ca.mergeContinuedContent parts).data.filter p)
      ((String.intercalate (" ") parts).data.filter p) := by
  unfold Ca.mergeContinuedContent
  by_cases hp : parts.isEmpty = true
  · rw [if_pos hp]
    exact List.nil_sublist _
  · rw [if_neg hp]
    have hins : ([' '].filter p) = [] := by simp [List.filter_cons, hws ' ' rfl]
    show List.Sublist
      ((stripChars (Ca.scrubNumTokens (collapseWs (Ca.removeAllCI ("see next page".data)
        (Ca.removeAllCI ("continued on next page".data)
          (Ca.scrubStarContinued (String.intercalate (" ") parts).data)))))).filter p)
      ((String.intercalate (" ") parts).data.filter p)
    have s5 := (stripChars_sublist (Ca.scrubNumTokens (collapseWs
      (Ca.removeAllCI ("see next page".data) (Ca.removeAllCI ("continued on next page".data)
        (Ca.scrubStarContinued (String.intercalate (" ") parts).data)))))).filter p
    have s4 : List.Sublist
        ((Ca.scrubNumTokens (collapseWs (Ca.removeAllCI ("see next page".data)
          (Ca.removeAllCI ("continued on next page".data)
            (Ca.scrubStarContinued (String.intercalate (" ") parts).data))))).filter p)
        ((collapseWs (Ca.removeAllCI ("see next page".data)
          (Ca.removeAllCI ("continued on next page".data)
            (Ca.scrubStarContinued (String.intercalate (" ") parts).data)))).filter p) :=
      scrubGo_filter _ _ p hins _ _
    have s3 : ((collapseWs (Ca.removeAllCI ("see next page".data)
        (Ca.removeAllCI ("continued on next page".data)
          (Ca.scrubStarContinued (String.intercalate (" ") parts).data)))).filter p) =
        ((Ca.removeAllCI ("see next page".data)
          (Ca.removeAllCI ("continued on next page".data)
            (Ca.scrubStarContinued (String.intercalate (" ") parts).data))).filter p) :=
      collapseWsGo_filter p hws _ false
    have s2 : List.Sublist
        ((Ca.removeAllCI ("see next page".data)
          (Ca.removeAllCI ("continued on next page".data)
            (Ca.scrubStarContinued (String.intercalate (" ") parts).data))).filter p)
        ((Ca.removeAllCI ("continued on next page".data)
          (Ca.scrubStarContinued (String.intercalate (" ") parts).data)).filter p) :=
      scrubGo_filter _ [] p rfl _ _
    have s1 : List.Sublist
        ((Ca.removeAllCI ("continued on next page".data)
          (Ca.scrubStarContinued (String.intercalate (" ") parts).data)).filter p)
        ((Ca.scrubStarContinued (String.intercalate (" ") parts).data).filter p) :=
      scrubGo_filter _ [] p rfl _ _
    have s0 : List.Sublist
        ((Ca.scrubStarContinued (String.intercalate (" ") parts).data).filter p)
        ((String.intercalate (" ") parts).data.filter p) :=
      scrubGo_filter _ [] p rfl _ _
    exact s5.trans ((s3 ▸ s4).trans (s2.trans (s1.trans s0)))

/-- C7 counterexample.  A continuation marker whose internal whitespace is a
newline survives both marker-deletion passes; after whitespace collapsing the
merged text contains the literal marker `"Continued on next page"`. -/
theorem c7_marker_survives_newline_spacing :
    ciContains ("continued on next page".data)
      (Ca.mergeContinuedContent [("Text continues"), ("Continued on\nnext page rest")]).data =
      true := rfl

/-- C7 (amended).  The merger deletes only exact single-spaced marker
occurrences (one left-to-right pass) and digit tokens followed by an
uppercase letter, so marker-freedom holds when the joined fragments never
carry the marker's letter sequence: under that hypothesis the merged text
contains no continuation-marker substring, and it is digit-free whenever the
joined fragments are. -/
theorem c7_merge_strips_markers (parts : List String)
    (h1 : subseqB (lowLetters ("continued on next page".data))
        (lowLetters (String.intercalate (" ") parts).data) = false)
    (h2 : subseqB (lowLetters ("see next page".data))
        (lowLetters (String.intercalate (" ") parts).data) = false)
    (h3 : ((String.intercalate (" ") parts).data.filter isDigitCh) = []) :
    ciContains ("continued on next page".data)
      (Ca.mergeContinuedContent parts).data = false ∧
    ciContains ("see next page".data) (Ca.mergeContinuedContent parts).data = false ∧
    ((Ca.mergeContinuedContent parts).data.filter isDigitCh) = [] := by
  have hsubNW := mergeContinuedContent_filter (fun c => !isWsChar c)
    (fun c hc => by simp [hc]) parts
  have hlow : List.Sublist (lowLetters (Ca.mergeContinuedContent parts).data)
      (lowLetters (String.intercalate (" ") parts).data) := hsubNW.map lowerCh
  have hsubD := mergeContinuedContent_filter isDigitCh ws_not_digit parts
  refine ⟨?_, ?_, ?_⟩
  · cases hcc : ciContains ("continued on next page".data)
        (Ca.mergeContinuedContent parts).data with
    | false => rfl
    | true =>
      exfalso
      have hs := subseqB_of_sublist ((ciContains_lowLetters _ _ hcc).trans hlow)
      rw [h1] at hs
      cases hs
  · cases hcc : ciContains ("see next page".data)
        (Ca.mergeContinuedContent parts).data with
    | false => rfl
    | true =>
      exfalso
      have hs := subseqB_of_sublist ((ciContains_lowLetters _ _ hcc).trans hlow)
      rw [h2] at hs
      cases hs
  · exact List.sublist_nil.mp (h3 ▸ hsubD)

/-- Witness for C7 (amended) on concrete marker-free, digit-free fragments. -/
theorem c7_merge_strips_markers_witness :
    ciContains ("continued on next page".data)
      (Ca.mergeContinuedContent [("alpha beta"), ("gamma")]).data = false ∧
    ciContains ("see next page".data)
      (Ca.mergeContinuedContent [("alpha beta"), ("gamma")]).data = false ∧
    ((Ca.mergeContinuedContent [("alpha beta"), ("gamma")]).data.filter isDigitCh) = [] :=
  c7_merge_strips_markers [("alpha beta"), ("gamma")] (by decide) (by decide) (by decide)
